import Mathlib

/-!
Shallow embedding of the p2p service of `juniuszhou/golkadot`
(package `p2p`, file `src/unnamed/part_000`), and proofs about it.

Go-level conventions used throughout the embedding:
* a Go nil-able pointer or interface is an `Option`;
* a Go `error` result is `Option GoErr` (`none` = the nil error) or
  `Except GoErr α` when a value is also produced;
* a Go runtime panic (nil dereference, slice index out of range) is an
  explicit `panic`-like constructor of the result type;
* `time.Time` and `time.Duration` are modelled as `Nat` (the backoff and
  dial intervals of the `defaults` package are positive constants);
* bytes are modelled as `Nat`;
* collaborator packages that are not part of this repository's source
  (`peers`, `sync`, `handler`, libp2p) enter as function parameters whose
  results the code branches on.
-/

namespace P2P

/-- A Go error value: either one of the named error variables of the
package or an `errors.New` with a message. -/
inductive GoErr where
  | noConfig            -- ErrNoConfig
  | noChainService      -- ErrNoChainService
  | uninitializedService -- ErrUninitializedService
  | noHost              -- ErrNoHost
  | noPeersService      -- ErrNoPeersService
  | msg (s : String)    -- errors.New(s)
  | ext (s : String)    -- an error propagated from a collaborator
deriving DecidableEq, Repr

/-- The routed host handle (external collaborator); the embedding keeps
only what the p2p code observes: its bound addresses. -/
structure Host where
  addrs : List Nat
deriving DecidableEq, Repr

/-- Opaque token for the peers collaborator built by `peers.New`. -/
structure PeerStore where
  tok : Nat
deriving DecidableEq, Repr

/-- Opaque token for the sync collaborator built by `sync.New`. -/
structure Sync where
  tok : Nat
deriving DecidableEq, Repr

/-- Opaque token for the chain-service collaborator. -/
structure Chain where
  tok : Nat
deriving DecidableEq, Repr

/-- `clienttypes.ConfigP2P`: the P2P sub-config. The embedding keeps
opaque tokens for the key material and the listen-address string. -/
structure ConfigP2P where
  Pub : Nat
  Priv : Nat
  Address : Nat
deriving DecidableEq, Repr

/-- `clienttypes.ConfigClient`; the `P2P` field is a nil-able pointer. -/
structure ConfigClient where
  P2P : Option ConfigP2P
deriving DecidableEq, Repr

/-- A peer handle as the dial queue sees it: its stable identity string. -/
structure PeerH where
  id : String
deriving DecidableEq, Repr

/-- `clienttypes.QueuedPeer`: a dial-queue entry. `Peer` is a nil-able
interface; `NextDial` is a `time.Time` modelled as `Nat`. -/
structure QueuedPeer where
  Peer : Option PeerH
  NextDial : Nat
deriving DecidableEq, Repr

/-- The Go map `map[string]*clienttypes.QueuedPeer`: an association list
from peer-identity keys to (nil-able) entry pointers. -/
abbrev DialQueue := List (String × Option QueuedPeer)

/-- `clienttypes.State`: the mutable aggregate owned by the node. -/
structure State where
  Chain : Chain
  Config : ConfigClient
  Peers : Option PeerStore
  Host : Option Host
deriving DecidableEq, Repr

/-- The `P2P` struct: node state, config, sync collaborator, the shared
cancel function (nil-able) and the dial queue. -/
structure Node where
  state : Option State
  cfg : Option ConfigClient
  sync : Option Sync
  cancel : Option Nat
  dialQueue : DialQueue
deriving DecidableEq

/-! ## `New` (src/unnamed/part_000 lines 38-79) -/

/-- `New`: validates its inputs, builds the peers and sync collaborators
(their constructors are external: the embedding receives their results),
and returns the fresh node. Mirrors the source line by line. -/
def New (cfg : Option ConfigClient) (c : Option Chain)
    (peersNew : Except GoErr PeerStore) (syncNew : Except GoErr Sync)
    (cancel : Option Nat) : Except GoErr Node :=
  match cfg with
  | none => Except.error GoErr.noConfig
  | some cfgv =>
    match cfgv.P2P with
    | none => Except.error (GoErr.msg "nil p2p config")
    | some _ =>
      match c with
      | none => Except.error GoErr.noChainService
      | some cv =>
        match peersNew with
        | Except.error e => Except.error e
        | Except.ok prs =>
          match syncNew with
          | Except.error e => Except.error e
          | Except.ok snc =>
            Except.ok
              { state := some
                  { Chain := cv
                    Config := cfgv
                    Peers := some prs
                    Host := none }
                cfg := some cfgv
                sync := some snc
                cancel := cancel
                dialQueue := [] }

/-! ## `IsStarted` (lines 82-89) -/

/-- `IsStarted`: true iff state and host exist and the host has at least
one bound address. -/
def IsStarted (n : Node) : Bool :=
  match n.state with
  | none => false
  | some st =>
    match st.Host with
    | none => false
    | some h => !(h.addrs.length == 0)

/-! ## `Stop` (lines 231-247) -/

/-- Result of `Stop`: the returned error (`none` = nil), whether the
shared cancel function was invoked, and the node state after the call
(the source assigns to no field of `p`). -/
structure StopResult where
  err : Option GoErr
  cancelFired : Bool
  node : Node
deriving DecidableEq

/-- `Stop`: fails on nil state, then on nil host; otherwise fires the
cancel function when it is non-nil and returns the nil error. -/
def Stop (n : Node) : StopResult :=
  match n.state with
  | none => { err := some GoErr.uninitializedService, cancelFired := false, node := n }
  | some st =>
    match st.Host with
    | none => { err := some GoErr.noHost, cancelFired := false, node := n }
    | some _ => { err := none, cancelFired := n.cancel.isSome, node := n }

/-! ## Claims C9, C6, C10 -/

/-- C9: `New` returns `ErrNoConfig` on a nil config, an explicit error on
a nil P2P sub-config, an explicit error on a nil chain collaborator,
propagates the peers/sync construction errors, and on success returns a
node whose dial queue is the empty map and whose host is unset. -/
theorem C9_new_validation
    (cfg : ConfigClient) (p2p : ConfigP2P) (c : Chain)
    (prs : PeerStore) (snc : Sync) (cancel : Option Nat)
    (pn : Except GoErr PeerStore) (sn : Except GoErr Sync)
    (e : GoErr)
    (hp2p : cfg.P2P = some p2p) :
    New none (some c) pn sn cancel = Except.error GoErr.noConfig
    ∧ New (some { P2P := none }) (some c) pn sn cancel
        = Except.error (GoErr.msg "nil p2p config")
    ∧ New (some cfg) none pn sn cancel = Except.error GoErr.noChainService
    ∧ New (some cfg) (some c) (Except.error e) sn cancel = Except.error e
    ∧ New (some cfg) (some c) (Except.ok prs) (Except.error e) cancel
        = Except.error e
    ∧ (∀ n, New (some cfg) (some c) (Except.ok prs) (Except.ok snc) cancel
          = Except.ok n → n.dialQueue = [] ∧ (∀ st, n.state = some st → st.Host = none)) := by
  refine ⟨rfl, rfl, ?_, ?_, ?_, ?_⟩
  · simp only [New, hp2p]
  · simp only [New, hp2p]
  · simp only [New, hp2p]
  · intro n hn
    simp only [New, hp2p] at hn
    cases hn
    exact ⟨rfl, fun st hst => by cases hst; rfl⟩

/-- Witness for C9 at concrete inputs. -/
theorem C9_new_validation_witness :
    ({ P2P := some { Pub := 1, Priv := 2, Address := 3 } } : ConfigClient).P2P
      = some { Pub := 1, Priv := 2, Address := 3 } ∧
    New none (some { tok := 0 }) (Except.ok { tok := 5 }) (Except.ok { tok := 6 }) none
      = Except.error GoErr.noConfig :=
  ⟨rfl,
   (C9_new_validation { P2P := some { Pub := 1, Priv := 2, Address := 3 } }
      { Pub := 1, Priv := 2, Address := 3 } { tok := 0 } { tok := 5 } { tok := 6 }
      none (Except.ok { tok := 5 }) (Except.ok { tok := 6 }) (GoErr.msg "x") rfl).1⟩

/-- A node as `New` would return it before `Start`: no host. -/
def sampleUnstartedNode : Node where
  state := none
  cfg := none
  sync := none
  cancel := some 7
  dialQueue := []

/-- A node after a successful `Start`: host set with one bound address. -/
def sampleStartedNode : Node where
  state := some
    { Chain := { tok := 0 }
      Config := { P2P := none }
      Peers := none
      Host := some { addrs := [4] } }
  cfg := none
  sync := none
  cancel := some 1
  dialQueue := []

/-- C6: `Stop` on a node whose host is still unset (state nil, or host
nil inside the state) returns the explicit uninitialized / no-host error,
does not fire the cancel function, and leaves the node unchanged. -/
theorem C6_stop_before_start (n : Node)
    (h : n.state = none ∨ ∃ st, n.state = some st ∧ st.Host = none) :
    ((Stop n).err = some GoErr.uninitializedService
      ∨ (Stop n).err = some GoErr.noHost)
    ∧ (Stop n).cancelFired = false
    ∧ (Stop n).node = n := by
  rcases h with h | ⟨st, hst, hh⟩
  · have hS : Stop n =
        { err := some GoErr.uninitializedService, cancelFired := false, node := n } := by
      unfold Stop
      rw [h]
    rw [hS]
    exact ⟨Or.inl rfl, rfl, rfl⟩
  · have hS : Stop n =
        { err := some GoErr.noHost, cancelFired := false, node := n } := by
      unfold Stop
      rw [hst]
      show (match st.Host with
        | none => ({ err := some GoErr.noHost, cancelFired := false, node := n } : StopResult)
        | some _ => { err := none, cancelFired := n.cancel.isSome, node := n }) = _
      rw [hh]
    rw [hS]
    exact ⟨Or.inr rfl, rfl, rfl⟩

/-- Witness for C6: a node built but never started. -/
theorem C6_stop_before_start_witness :
    ((Stop sampleUnstartedNode).err = some GoErr.uninitializedService
      ∨ (Stop sampleUnstartedNode).err = some GoErr.noHost)
    ∧ (Stop sampleUnstartedNode).cancelFired = false
    ∧ (Stop sampleUnstartedNode).node = sampleUnstartedNode :=
  C6_stop_before_start sampleUnstartedNode (Or.inl rfl)

/-- C10: a successful `Stop` only fires the cancel function: the node
state (host, peer store, config, dial queue) is returned unchanged, and
`IsStarted` still reports what it reported before; in particular a
started node still reports started after `Stop`. -/
theorem C10_stop_frame (n : Node) (h : (Stop n).err = none) :
    (Stop n).node = n
    ∧ (Stop n).cancelFired = n.cancel.isSome
    ∧ IsStarted (Stop n).node = IsStarted n
    ∧ (IsStarted n = true → IsStarted (Stop n).node = true) := by
  have hnode : (Stop n).node = n := by
    unfold Stop
    split
    · rfl
    · split
      · rfl
      · rfl
  have hfire : (Stop n).cancelFired = n.cancel.isSome := by
    unfold Stop at h ⊢
    split at h
    · exact absurd h (by simp)
    · split at h
      · exact absurd h (by simp)
      · rfl
  exact ⟨hnode, hfire, by rw [hnode], fun hS => by rw [hnode]; exact hS⟩

/-- Witness for C10: a started node with one bound address. -/
theorem C10_stop_frame_witness :
    (Stop sampleStartedNode).err = none
    ∧ ((Stop sampleStartedNode).node = sampleStartedNode
      ∧ IsStarted (Stop sampleStartedNode).node = IsStarted sampleStartedNode
      ∧ (IsStarted sampleStartedNode = true →
          IsStarted (Stop sampleStartedNode).node = true)) :=
  ⟨rfl, (C10_stop_frame sampleStartedNode rfl).1,
    (C10_stop_frame sampleStartedNode rfl).2.2.1,
    (C10_stop_frame sampleStartedNode rfl).2.2.2⟩

/-! ## `handlePeerMessage` (lines 574-594)

The handler registry (`handler.FromEnum`) lives in a collaborator
package, so it enters as a function parameter. To make "the handler is
invoked exactly once with these arguments" observable in a pure
embedding, the dispatch function also returns the list of invocations it
performed, in order. -/

/-- A decoded inbound message; the code only observes its `Kind()`. -/
structure PMessage where
  kind : Nat
deriving DecidableEq, Repr

/-- `clienttypes.OnMessage`: the envelope. `Peer` is an opaque token for
the source peer; `Message` is a nil-able interface. -/
structure OnMessage where
  Peer : Nat
  Message : Option PMessage
deriving DecidableEq, Repr

/-- A registered handler: its declared kind (`h.Type()`) and its
function. The function receives (node token, peer, message) and returns
a Go error (`none` = nil). -/
structure Handler where
  hType : Nat
  hFunc : Nat → Nat → PMessage → Option GoErr

/-- One recorded handler invocation: (node token, peer, message). -/
def HandlerCall := Nat × Nat × PMessage

instance : DecidableEq HandlerCall := by
  unfold HandlerCall
  infer_instance

/-- `handlePeerMessage`: nil checks, registry lookup by the message's
kind, declared-kind consistency check, then the single handler call.
Returns the Go error result together with the invocation trace.
`fromEnum` may fail (`Except.error`) or resolve to a nil handler
(`Except.ok none`), exactly as the Go call can. -/
def handlePeerMessage (fromEnum : Nat → Except GoErr (Option Handler))
    (node : Nat) (msg : Option OnMessage) : Option GoErr × List HandlerCall :=
  match msg with
  | none => (some (GoErr.msg "nil msg"), [])
  | some m =>
    match m.Message with
    | none => (some (GoErr.msg "nil message"), [])
    | some message =>
      match fromEnum message.kind with
      | Except.error e => (some e, [])
      | Except.ok none => (some (GoErr.msg "nil handler"), [])
      | Except.ok (some h) =>
        if h.hType != message.kind then (some (GoErr.msg "wrong handler"), [])
        else (h.hFunc node m.Peer message, [(node, m.Peer, message)])

/-- C2: when the registry resolves a handler whose declared kind equals
the message's kind, `handlePeerMessage` invokes it exactly once with the
node, the envelope's peer and the envelope's message, returning the
handler's error unmodified; on a nil envelope, a nil message, a failed or
nil registry lookup, or a declared-kind mismatch, it returns a non-nil
error and invokes no handler. -/
theorem C2_dispatch (fromEnum : Nat → Except GoErr (Option Handler))
    (node : Nat) (m : OnMessage) (message : PMessage) (h : Handler)
    (e : GoErr)
    (hmsg : m.Message = some message) :
    (fromEnum message.kind = Except.ok (some h) → h.hType = message.kind →
      handlePeerMessage fromEnum node (some m)
        = (h.hFunc node m.Peer message, [(node, m.Peer, message)]))
    ∧ handlePeerMessage fromEnum node none = (some (GoErr.msg "nil msg"), [])
    ∧ handlePeerMessage fromEnum node (some { m with Message := none })
        = (some (GoErr.msg "nil message"), [])
    ∧ (fromEnum message.kind = Except.error e →
        handlePeerMessage fromEnum node (some m) = (some e, []))
    ∧ (fromEnum message.kind = Except.ok none →
        handlePeerMessage fromEnum node (some m)
          = (some (GoErr.msg "nil handler"), []))
    ∧ (fromEnum message.kind = Except.ok (some h) → h.hType ≠ message.kind →
        handlePeerMessage fromEnum node (some m)
          = (some (GoErr.msg "wrong handler"), [])) := by
  refine ⟨?_, rfl, rfl, ?_, ?_, ?_⟩
  · intro hreg hty
    simp only [handlePeerMessage, hmsg, hreg, hty, bne_self_eq_false, if_neg]
    simp
  · intro hreg
    simp only [handlePeerMessage, hmsg, hreg]
  · intro hreg
    simp only [handlePeerMessage, hmsg, hreg]
  · intro hreg hty
    simp only [handlePeerMessage, hmsg, hreg]
    simp [bne_iff_ne, hty]

/-- A concrete registry for the C2 witness: kind 2 resolves to a handler
declared for kind 2 that returns the nil error. -/
def sampleFromEnum : Nat → Except GoErr (Option Handler) :=
  fun k =>
    if k == 2 then Except.ok (some { hType := 2, hFunc := fun _ _ _ => none })
    else Except.error (GoErr.ext "unknown kind")

/-- Witness for C2 at a concrete registry, envelope and handler. -/
theorem C2_dispatch_witness :
    ({ Peer := 9, Message := some { kind := 2 } } : OnMessage).Message
        = some { kind := 2 }
    ∧ handlePeerMessage sampleFromEnum 1 none = (some (GoErr.msg "nil msg"), []) :=
  ⟨rfl,
   (C2_dispatch sampleFromEnum 1 { Peer := 9, Message := some { kind := 2 } }
      { kind := 2 } { hType := 2, hFunc := fun _ _ _ => none }
      (GoErr.ext "unknown kind") rfl).2.1⟩

/-! ## Dial queue: `dialPeers` (lines 358-409)

`dialPeers` has two phases: the entry phase (precondition check and the
guarded insertion at lines 364-371) and the periodic sweep over the whole
queue (lines 391-405). Both are embedded below; `time.Time`/`Duration`
are `Nat`, and the Go map is the association list `DialQueue`. -/

/-- Go map lookup `v, ok := m[k]`: `some v` iff the key is present (the
stored pointer `v` may itself be nil). -/
def lookupQ : DialQueue → String → Option (Option QueuedPeer)
  | [], _ => none
  | (k, v) :: rest, key => if k = key then some v else lookupQ rest key

/-- Number of entries of the queue carrying a given identity key. -/
def keyCount : DialQueue → String → Nat
  | [], _ => 0
  | (k, _) :: rest, key => (if k = key then 1 else 0) + keyCount rest key

/-- The entry phase of `dialPeers`: if the node is not started, return
with the queue untouched; otherwise, if a (non-nil) peer was passed and
its identity is not yet a key of the queue, insert a fresh entry with
`NextDial = now`; an existing entry is left unchanged. -/
def dialPeersInsert (started : Bool) (now : Nat) (q : DialQueue)
    (pr : Option PeerH) : DialQueue :=
  if started = false then q
  else
    match pr with
    | none => q
    | some peer =>
      match lookupQ q peer.id with
      | some _ => q
      | none => q ++ [(peer.id, some { Peer := some peer, NextDial := now })]

/-- One sweep's action on a single queue entry (lines 391-405): skip nil
entries, entries whose `NextDial` is still in the future, entries with a
nil peer, and peers whose `IsActive` check errors or reports active;
otherwise advance `NextDial` by the backoff before the dial attempt (the
attempt itself never touches the entry). `activeOf` is the result of
`Peer.IsActive()` during this sweep. -/
def sweepEntry (now backoff : Nat) (activeOf : String → Except GoErr Bool) :
    Option QueuedPeer → Option QueuedPeer
  | none => none
  | some e =>
    if now < e.NextDial then some e
    else
      match e.Peer with
      | none => some e
      | some pr =>
        match activeOf pr.id with
        | Except.error _ => some e
        | Except.ok true => some e
        | Except.ok false => some { e with NextDial := e.NextDial + backoff }

/-- One full sweep of the queue: every entry is visited. -/
def sweepQueue (now backoff : Nat) (activeOf : String → Except GoErr Bool)
    (q : DialQueue) : DialQueue :=
  q.map (fun e => (e.1, sweepEntry now backoff activeOf e.2))

/-- Successive sweeps of the loop: each tick observes its own clock value
and its own `IsActive` answers; the backoff increment is the fixed
`defaults.Defaults.DialBackoff`. -/
def sweeps (backoff : Nat) (ticks : List (Nat × (String → Except GoErr Bool)))
    (q : DialQueue) : DialQueue :=
  match ticks with
  | [] => q
  | t :: rest => sweeps backoff rest (sweepQueue t.1 backoff t.2 q)

/-! ### Helper lemmas on the queue -/

theorem lookupQ_none_keyCount (q : DialQueue) (k : String)
    (h : lookupQ q k = none) : keyCount q k = 0 := by
  induction q with
  | nil => rfl
  | cons e rest ih =>
    obtain ⟨ek, ev⟩ := e
    by_cases hk : ek = k
    · simp only [lookupQ, if_pos hk] at h
      cases h
    · simp only [lookupQ, if_neg hk] at h
      simp only [keyCount, if_neg hk, ih h, Nat.zero_add]

theorem keyCount_append (q r : DialQueue) (k : String) :
    keyCount (q ++ r) k = keyCount q k + keyCount r k := by
  induction q with
  | nil => simp [keyCount]
  | cons e rest ih =>
    obtain ⟨ek, ev⟩ := e
    show keyCount ((ek, ev) :: (rest ++ r)) k = _
    simp only [keyCount]
    rw [ih]
    omega

theorem lookupQ_append_absent (q : DialQueue) (k : String) (v : Option QueuedPeer)
    (h : lookupQ q k = none) : lookupQ (q ++ [(k, v)]) k = some v := by
  induction q with
  | nil => simp [lookupQ]
  | cons e rest ih =>
    obtain ⟨ek, ev⟩ := e
    by_cases hk : ek = k
    · simp only [lookupQ, if_pos hk] at h
      cases h
    · simp only [lookupQ, if_neg hk] at h
      show lookupQ ((ek, ev) :: (rest ++ [(k, v)])) k = some v
      simp only [lookupQ, if_neg hk]
      exact ih h

theorem lookupQ_map_entry (f : Option QueuedPeer → Option QueuedPeer)
    (q : DialQueue) (k : String) :
    lookupQ (q.map (fun e => (e.1, f e.2))) k = (lookupQ q k).map f := by
  induction q with
  | nil => rfl
  | cons e rest ih =>
    obtain ⟨ek, ev⟩ := e
    by_cases hk : ek = k
    · simp only [List.map_cons, lookupQ, if_pos hk]
      rfl
    · simp only [List.map_cons, lookupQ, if_neg hk, ih]

/-- Unfolding: the entry phase does nothing on an unstarted node. -/
theorem dialPeersInsert_not_started (now : Nat) (q : DialQueue)
    (pr : Option PeerH) : dialPeersInsert false now q pr = q := rfl

/-- Unfolding: a nil peer is never inserted. -/
theorem dialPeersInsert_nil_peer (now : Nat) (q : DialQueue) :
    dialPeersInsert true now q none = q := rfl

/-- Unfolding: an identity already present leaves the queue unchanged. -/
theorem dialPeersInsert_present (now : Nat) (q : DialQueue) (peer : PeerH)
    (v : Option QueuedPeer) (hl : lookupQ q peer.id = some v) :
    dialPeersInsert true now q (some peer) = q := by
  simp [dialPeersInsert, hl]

/-- Unfolding: an absent identity is inserted with `NextDial = now`. -/
theorem dialPeersInsert_absent (now : Nat) (q : DialQueue) (peer : PeerH)
    (hl : lookupQ q peer.id = none) :
    dialPeersInsert true now q (some peer)
      = q ++ [(peer.id, some { Peer := some peer, NextDial := now })] := by
  simp [dialPeersInsert, hl]

/-! ### Claim C4 -/

/-- C4: the dial queue holds at most one entry per peer identity.  The
entry phase of `dialPeers` (i) preserves "every key occurs at most
once", (ii) leaves the queue unchanged whenever the peer's identity is
already present, and (iii) once an entry for a peer exists, running the
entry phase again for the same peer — at any later clock value, started
or not — changes nothing, so repeated calls never yield two entries. -/
theorem C4_dialQueue_unique (started started' : Bool) (now now' : Nat)
    (q : DialQueue) (pr : Option PeerH) (peer : PeerH)
    (huniq : ∀ k, keyCount q k ≤ 1) :
    (∀ k, keyCount (dialPeersInsert started now q pr) k ≤ 1)
    ∧ (∀ v, lookupQ q peer.id = some v →
        dialPeersInsert started now q (some peer) = q)
    ∧ dialPeersInsert started' now'
        (dialPeersInsert true now q (some peer)) (some peer)
      = dialPeersInsert true now q (some peer) := by
  have hunchanged : ∀ v, lookupQ q peer.id = some v →
      dialPeersInsert started now q (some peer) = q := by
    intro v hv
    cases started with
    | false => exact dialPeersInsert_not_started now q (some peer)
    | true => exact dialPeersInsert_present now q peer v hv
  refine ⟨?_, hunchanged, ?_⟩
  · intro k
    cases started with
    | false => rw [dialPeersInsert_not_started]; exact huniq k
    | true =>
      cases pr with
      | none => rw [dialPeersInsert_nil_peer]; exact huniq k
      | some p =>
        cases hl : lookupQ q p.id with
        | some v => rw [dialPeersInsert_present now q p v hl]; exact huniq k
        | none =>
          rw [dialPeersInsert_absent now q p hl, keyCount_append]
          by_cases hk : p.id = k
          · rw [← hk, lookupQ_none_keyCount q p.id hl]
            simp [keyCount]
          · have h1 : keyCount [(p.id, some { Peer := some p, NextDial := now })] k = 0 := by
              simp [keyCount, hk]
            rw [h1]
            simpa using huniq k
  · cases hl : lookupQ q peer.id with
    | some v =>
      rw [dialPeersInsert_present now q peer v hl]
      cases started' with
      | false => exact dialPeersInsert_not_started now' q (some peer)
      | true => exact dialPeersInsert_present now' q peer v hl
    | none =>
      rw [dialPeersInsert_absent now q peer hl]
      cases started' with
      | false => exact dialPeersInsert_not_started now' _ (some peer)
      | true =>
        exact dialPeersInsert_present now' _ peer _
          (lookupQ_append_absent q peer.id _ hl)

/-- Witness for C4: inserting one peer into the empty queue twice. -/
theorem C4_dialQueue_unique_witness :
    (∀ k, keyCount [] k ≤ 1)
    ∧ ((∀ k, keyCount (dialPeersInsert true 5 [] (some { id := "a" })) k ≤ 1)
      ∧ (∀ v, lookupQ [] ("a" : String) = some v →
          dialPeersInsert true 5 [] (some { id := "a" }) = [])
      ∧ dialPeersInsert true 9
          (dialPeersInsert true 5 [] (some { id := "a" })) (some { id := "a" })
        = dialPeersInsert true 5 [] (some { id := "a" })) :=
  ⟨fun _ => Nat.zero_le 1,
   C4_dialQueue_unique true true 5 9 [] (some { id := "a" }) { id := "a" }
     (fun _ => Nat.zero_le 1)⟩

/-! ### Claim C3 -/

/-- One sweep never moves an entry's `NextDial` backward: the entry
survives with the same peer, and its `NextDial` is either untouched or
advanced by exactly the backoff increment. -/
theorem sweepEntry_mono (now backoff : Nat)
    (activeOf : String → Except GoErr Bool) (e : QueuedPeer) :
    ∃ e1, sweepEntry now backoff activeOf (some e) = some e1
      ∧ e.NextDial ≤ e1.NextDial
      ∧ (e1.NextDial = e.NextDial ∨ e1.NextDial = e.NextDial + backoff)
      ∧ e1.Peer = e.Peer := by
  by_cases h : now < e.NextDial
  · exact ⟨e, by simp [sweepEntry, h], le_refl _, Or.inl rfl, rfl⟩
  · cases hp : e.Peer with
    | none =>
      exact ⟨e, by simp [sweepEntry, h, hp], le_refl _, Or.inl rfl, hp⟩
    | some pr =>
      cases ha : activeOf pr.id with
      | error ge =>
        exact ⟨e, by simp [sweepEntry, h, hp, ha], le_refl _, Or.inl rfl, hp⟩
      | ok b =>
        cases b with
        | true =>
          exact ⟨e, by simp [sweepEntry, h, hp, ha], le_refl _, Or.inl rfl, hp⟩
        | false =>
          exact ⟨{ e with NextDial := e.NextDial + backoff },
            by simp [sweepEntry, h, hp, ha], Nat.le_add_right _ _, Or.inr rfl, hp⟩

/-- Lifting `sweepEntry_mono` through one whole-queue sweep. -/
theorem sweepQueue_lookup_mono (now backoff : Nat)
    (activeOf : String → Except GoErr Bool) (q : DialQueue) (k : String)
    (e : QueuedPeer) (h : lookupQ q k = some (some e)) :
    ∃ e1, lookupQ (sweepQueue now backoff activeOf q) k = some (some e1)
      ∧ e.NextDial ≤ e1.NextDial
      ∧ (e1.NextDial = e.NextDial ∨ e1.NextDial = e.NextDial + backoff)
      ∧ e1.Peer = e.Peer := by
  obtain ⟨e1, he1, hle, hstep, hpeer⟩ := sweepEntry_mono now backoff activeOf e
  refine ⟨e1, ?_, hle, hstep, hpeer⟩
  unfold sweepQueue
  rw [lookupQ_map_entry, h]
  show some (sweepEntry now backoff activeOf (some e)) = some (some e1)
  rw [he1]

/-- Lifting to any finite sequence of sweeps. -/
theorem sweeps_lookup_mono (backoff : Nat)
    (ticks : List (Nat × (String → Except GoErr Bool)))
    (q : DialQueue) (k : String) (e : QueuedPeer)
    (h : lookupQ q k = some (some e)) :
    ∃ e2, lookupQ (sweeps backoff ticks q) k = some (some e2)
      ∧ e.NextDial ≤ e2.NextDial := by
  induction ticks generalizing q e with
  | nil => exact ⟨e, h, le_refl _⟩
  | cons t rest ih =>
    obtain ⟨e1, he1, hle1, hstep, hpeer⟩ :=
      sweepQueue_lookup_mono t.1 backoff t.2 q k e h
    obtain ⟨e2, he2, hle2⟩ := ih (sweepQueue t.1 backoff t.2 q) e1 he1
    exact ⟨e2, he2, le_trans hle1 hle2⟩

/-- C3: `NextDial` is monotonically non-decreasing across sweeps of the
`dialPeers` loop.  In a single sweep an entry's `NextDial` either stays
put or advances by exactly the fixed backoff increment (never moves
backward), and across any finite sequence of sweeps — whatever clock
values and `IsActive` answers each sweep observes — the entry's
`NextDial` never decreases from its value at insertion. -/
theorem C3_nextDial_monotone (now backoff : Nat)
    (activeOf : String → Except GoErr Bool)
    (ticks : List (Nat × (String → Except GoErr Bool)))
    (q : DialQueue) (k : String) (e : QueuedPeer)
    (h : lookupQ q k = some (some e)) :
    (∃ e1, lookupQ (sweepQueue now backoff activeOf q) k = some (some e1)
      ∧ e.NextDial ≤ e1.NextDial
      ∧ (e1.NextDial = e.NextDial ∨ e1.NextDial = e.NextDial + backoff))
    ∧ (∃ e2, lookupQ (sweeps backoff ticks q) k = some (some e2)
      ∧ e.NextDial ≤ e2.NextDial) := by
  constructor
  · obtain ⟨e1, he1, hle, hstep, hpeer⟩ :=
      sweepQueue_lookup_mono now backoff activeOf q k e h
    exact ⟨e1, he1, hle, hstep⟩
  · exact sweeps_lookup_mono backoff ticks q k e h

/-- A one-entry queue for the C3 witness. -/
def sampleEntry : QueuedPeer where
  Peer := some { id := "a" }
  NextDial := 4

/-- Witness for C3: one entry, two sweeps, the second one eligible. -/
theorem C3_nextDial_monotone_witness :
    lookupQ [("a", some sampleEntry)] "a" = some (some sampleEntry)
    ∧ ((∃ e1, lookupQ (sweepQueue 10 3 (fun _ => Except.ok false)
          [("a", some sampleEntry)]) "a" = some (some e1)
        ∧ sampleEntry.NextDial ≤ e1.NextDial
        ∧ (e1.NextDial = sampleEntry.NextDial
            ∨ e1.NextDial = sampleEntry.NextDial + 3))
      ∧ (∃ e2, lookupQ (sweeps 3
            [(2, fun _ => Except.ok false), (10, fun _ => Except.ok false)]
            [("a", some sampleEntry)]) "a" = some (some e2)
        ∧ sampleEntry.NextDial ≤ e2.NextDial)) :=
  ⟨by decide,
   C3_nextDial_monotone 10 3 (fun _ => Except.ok false)
     [(2, fun _ => Except.ok false), (10, fun _ => Except.ok false)]
     [("a", some sampleEntry)] "a" sampleEntry (by decide)⟩

/-! ## `Start` (lines 110-228)

The body of `Start` after its nil checks is a straight-line sequence of
collaborator calls (identity derivation, address parsing, peer-store
seeding, swarm/dht/host construction, discovery), each short-circuiting
on error. The embedding keeps the first two calls separate — they are
what claim C5 is about — and collapses the host-construction tail into
one external step.  Note the source checks `p.cfg == nil` but never
`p.cfg.P2P == nil`: evaluating `p.cfg.P2P.Pub` with a nil `P2P` pointer
is a nil dereference, modelled as `panicNilDeref`. -/

/-- Collaborator calls `Start` makes after its nil checks, in order. -/
inductive ExtStep where
  | deriveId
  | parseAddr
  | buildHost
deriving DecidableEq, Repr

/-- How a call to `Start` ends. -/
inductive StartOutcome where
  | err (e : GoErr)
  | panicNilDeref
  | started (h : Host)
deriving DecidableEq, Repr

/-- The collaborators `Start` drives: `libpeer.IDFromPublicKey`,
`ma.NewMultiaddr`, and the peer-store/swarm/dht/host tail. -/
structure StartExt where
  idFromPublicKey : Nat → Except GoErr Nat
  newMultiaddr : Nat → Except GoErr Nat
  buildHost : Nat → Nat → Except GoErr Host

/-- Whether an outcome is a returned (Go) error. -/
def isErrOutcome : StartOutcome → Bool
  | StartOutcome.err _ => true
  | _ => false

/-- `Start`: nil checks on cfg/state/sync, then the dereference of
`p.cfg.P2P.Pub`, then the external pipeline; the second component is the
list of collaborator calls that were attempted. -/
def Start (n : Node) (ext : StartExt) : StartOutcome × List ExtStep :=
  match n.cfg with
  | none => (StartOutcome.err (GoErr.msg "nil config"), [])
  | some cfgv =>
    match n.state with
    | none => (StartOutcome.err (GoErr.msg "nil state"), [])
    | some _ =>
      match n.sync with
      | none => (StartOutcome.err (GoErr.msg "err nil sync"), [])
      | some _ =>
        match cfgv.P2P with
        | none => (StartOutcome.panicNilDeref, [])
        | some p2p =>
          match ext.idFromPublicKey p2p.Pub with
          | Except.error e => (StartOutcome.err e, [ExtStep.deriveId])
          | Except.ok pid =>
            match ext.newMultiaddr p2p.Address with
            | Except.error e =>
              (StartOutcome.err e, [ExtStep.deriveId, ExtStep.parseAddr])
            | Except.ok listen =>
              match ext.buildHost pid listen with
              | Except.error e =>
                (StartOutcome.err e,
                 [ExtStep.deriveId, ExtStep.parseAddr, ExtStep.buildHost])
              | Except.ok h =>
                (StartOutcome.started h,
                 [ExtStep.deriveId, ExtStep.parseAddr, ExtStep.buildHost])

/-- A node whose config is present but whose P2P sub-config is nil, with
state and sync collaborators in place. -/
def nilP2PNode : Node where
  state := some
    { Chain := { tok := 0 }
      Config := { P2P := none }
      Peers := some { tok := 1 }
      Host := none }
  cfg := some { P2P := none }
  sync := some { tok := 2 }
  cancel := none
  dialQueue := []

/-- Benign concrete collaborators for the `Start` counterexample. -/
def startExt0 : StartExt where
  idFromPublicKey := fun _ => Except.ok 0
  newMultiaddr := fun _ => Except.ok 0
  buildHost := fun _ _ => Except.ok { addrs := [1] }

/-- C5 counterexample: on a node whose P2P sub-config is nil (state and
sync present), `Start` does not return an error — it hits the nil
dereference of `p.cfg.P2P.Pub` — so the claim "returns an error
immediately" is false at this input. -/
theorem C5_counterexample :
    isErrOutcome (Start nilP2PNode startExt0).1 = false
    ∧ (Start nilP2PNode startExt0).1 = StartOutcome.panicNilDeref
    ∧ (Start nilP2PNode startExt0).2 = [] :=
  ⟨rfl, rfl, rfl⟩

/-- C5 amended: `Start` on a node whose P2P sub-config is nil (and whose
config, state and sync pass the nil checks) crashes with a nil-pointer
dereference while deriving the local identity, before attempting to
parse the listen address or construct the network host; it does not
return an error. -/
theorem C5_amended_nilP2P_panics (n : Node) (cfgv : ConfigClient)
    (ext : StartExt)
    (hcfg : n.cfg = some cfgv) (hp2p : cfgv.P2P = none)
    (hst : n.state.isSome = true) (hsy : n.sync.isSome = true) :
    Start n ext = (StartOutcome.panicNilDeref, []) := by
  obtain ⟨st, hst'⟩ := Option.isSome_iff_exists.mp hst
  obtain ⟨sy, hsy'⟩ := Option.isSome_iff_exists.mp hsy
  simp only [Start, hcfg, hst', hsy', hp2p]

/-- Witness for the amended C5 at the concrete node and collaborators. -/
theorem C5_amended_nilP2P_panics_witness :
    (nilP2PNode.cfg = some { P2P := none }
      ∧ ({ P2P := none } : ConfigClient).P2P = none
      ∧ nilP2PNode.state.isSome = true
      ∧ nilP2PNode.sync.isSome = true)
    ∧ Start nilP2PNode startExt0 = (StartOutcome.panicNilDeref, []) :=
  ⟨⟨rfl, rfl, rfl, rfl⟩,
   C5_amended_nilP2P_panics nilP2PNode { P2P := none } startExt0 rfl rfl rfl rfl⟩

/-! ## `sendPingToPeer` (lines 499-568)

After the nonce is written and flushed, the source reads the reply with

    var (
      b2 []byte
      c  byte
      nb int
    )
    for {
      c, err = r.ReadByte()
      if err == nil { b2[nb] = c; nb++; continue }
      if err == io.EOF { break }
      if nb >= 32 { break }
      return err
    }

`b2` is the nil slice, so the store `b2[nb] = c` is in range only when
`nb < len(b2) = 0`: it panics on the first successfully read byte. The
reader is modelled as the list of successfully read bytes followed by
the terminal read result (end-of-stream, or an error such as the
deadline expiring). -/

/-- The terminal result of the reply stream: end-of-stream, or a read
error (e.g. the I/O deadline expiring). -/
inductive ReadTerm where
  | eof
  | err (e : GoErr)
deriving DecidableEq, Repr

/-- How the reply-reading loop ends. -/
inductive PingReadRes where
  | panicIndex
  | retErr (e : GoErr)
  | done (b2 : List Nat)
deriving DecidableEq, Repr

/-- The reply-reading loop, byte for byte from the source: a successful
read stores into `b2` at index `nb` (panic when out of range);
end-of-stream breaks; another read error breaks when `nb >= 32` and is
returned otherwise. -/
def pingReadLoop (b2 : List Nat) (nb : Nat) :
    List Nat → ReadTerm → PingReadRes
  | c :: rest, t =>
    if nb < b2.length then pingReadLoop (b2.set nb c) (nb + 1) rest t
    else PingReadRes.panicIndex
  | [], ReadTerm.eof => PingReadRes.done b2
  | [], ReadTerm.err e =>
    if 32 ≤ nb then PingReadRes.done b2 else PingReadRes.retErr e

/-- How a call to `sendPingToPeer` ends. -/
inductive PingOutcome where
  | ok
  | errReturn (e : GoErr)
  | errMismatch
  | panicIndex
deriving DecidableEq, Repr

/-- The exchange after the nonce has been written: run the reply loop
starting from the nil slice `b2`, then `bytes.Equal(b, b2)`. -/
def sendPingExchange (nonce pong : List Nat) (term : ReadTerm) :
    PingOutcome :=
  match pingReadLoop [] 0 pong term with
  | PingReadRes.panicIndex => PingOutcome.panicIndex
  | PingReadRes.retErr e => PingOutcome.errReturn e
  | PingReadRes.done b2 =>
    if nonce = b2 then PingOutcome.ok else PingOutcome.errMismatch

/-- `sendPingToPeer`: nil checks, stream opening, deadline, nonce
generation and write/flush (external results), then the exchange. -/
def sendPingToPeer (pr : Option PeerH) (state : Option State)
    (newStreamErr setDeadlineErr randErr writeErr flushErr : Option GoErr)
    (nonce pong : List Nat) (term : ReadTerm) : PingOutcome :=
  match pr with
  | none => PingOutcome.errReturn (GoErr.msg "cannot ping nil peer")
  | some _ =>
    match state with
    | none => PingOutcome.errReturn (GoErr.msg "nil state")
    | some st =>
      match st.Host with
      | none => PingOutcome.errReturn (GoErr.msg "nil host")
      | some _ =>
        match newStreamErr with
        | some e => PingOutcome.errReturn e
        | none =>
          match setDeadlineErr with
          | some e => PingOutcome.errReturn e
          | none =>
            match randErr with
            | some e => PingOutcome.errReturn e
            | none =>
              match writeErr with
              | some e => PingOutcome.errReturn e
              | none =>
                match flushErr with
                | some e => PingOutcome.errReturn e
                | none => sendPingExchange nonce pong term

/-- A started state for ping: host present. -/
def pingState : State where
  Chain := { tok := 0 }
  Config := { P2P := none }
  Peers := some { tok := 1 }
  Host := some { addrs := [1] }

/-- C1 (code bug): with every collaborator step succeeding, a remote that
echoes the 32-byte nonce back exactly makes `sendPingToPeer` panic (the
first received byte is stored into the nil slice `b2`), instead of
returning nil; and even a remote that closes the stream at once yields
the mismatch error — the call can never return nil on a 32-byte nonce. -/
theorem C1_ping_roundtrip_panics :
    sendPingToPeer (some { id := "b" }) (some pingState)
        none none none none none
        (List.range 32) (List.range 32) ReadTerm.eof
      = PingOutcome.panicIndex
    ∧ sendPingToPeer (some { id := "b" }) (some pingState)
        none none none none none
        (List.range 32) [] ReadTerm.eof
      = PingOutcome.errMismatch
    ∧ sendPingToPeer (some { id := "b" }) (some pingState)
        none none none none none
        (List.range 32) [] (ReadTerm.err (GoErr.ext "deadline"))
      = PingOutcome.errReturn (GoErr.ext "deadline") := by
  refine ⟨?_, ?_, ?_⟩ <;> decide

/-! ## `protocolHandler` (lines 306-356)

The first statement is `defer stream.Close()`; the `stream == nil` check
comes later. On a nil stream every return therefore runs the deferred
`Close` on a nil interface, a nil dereference — modelled by `panicked`.
On a non-nil stream the deferred `Close` runs normally on every path —
modelled by `closed`. -/

/-- `peerstore.InfoFromP2pAddr` result token. -/
structure PInfo where
  tok : Nat
deriving DecidableEq, Repr

/-- The peer handle inside the `KnownPeer` returned by `Peers.Add`; the
handler only queries `IsWritable` on it. -/
structure AddedPeerH where
  IsWritable : Except GoErr Bool

/-- The (nil-able) `KnownPeer` returned by `Peers.Add`. -/
structure AddedPeer where
  Peer : Option AddedPeerH

/-- An inbound stream: the handler reads only its remote multiaddr. -/
structure StreamTok where
  remoteAddr : Nat
deriving DecidableEq, Repr

/-- The collaborators `protocolHandler` drives. -/
structure PHExt where
  infoFromP2pAddr : Nat → Except GoErr (Option PInfo)
  peersAdd : PInfo → Except GoErr (Option AddedPeer)

/-- Observable outcome of one `protocolHandler` run. -/
structure PHRes where
  panicked : Bool
  closed : Bool
  addCalled : Bool
  dialLaunched : Bool
deriving DecidableEq, Repr

/-- A return from the handler: the deferred `Close` fires — on a nil
stream that is a nil dereference, on a live stream it closes it. -/
def phReturn (stream : Option StreamTok) (addCalled dialLaunched : Bool) :
    PHRes :=
  match stream with
  | none =>
    { panicked := true, closed := false
      addCalled := addCalled, dialLaunched := dialLaunched }
  | some _ =>
    { panicked := false, closed := true
      addCalled := addCalled, dialLaunched := dialLaunched }

/-- `protocolHandler`, path by path from the source; `addCalled` records
whether `Peers.Add` was invoked, `dialLaunched` whether the background
`dialPeers` task was spawned. -/
def protocolHandler (state : Option State) (stream : Option StreamTok)
    (ext : PHExt) : PHRes :=
  match state with
  | none => phReturn stream false false
  | some st =>
    match st.Peers with
    | none => phReturn stream false false
    | some _ =>
      match stream with
      | none => phReturn stream false false
      | some sd =>
        match ext.infoFromP2pAddr sd.remoteAddr with
        | Except.error _ => phReturn stream false false
        | Except.ok none => phReturn stream false false
        | Except.ok (some pinfo) =>
          match ext.peersAdd pinfo with
          | Except.error _ => phReturn stream true false
          | Except.ok none => phReturn stream true false
          | Except.ok (some pr) =>
            match pr.Peer with
            | none => phReturn stream true false
            | some peerh =>
              match peerh.IsWritable with
              | Except.error _ => phReturn stream true false
              | Except.ok true => phReturn stream true false
              | Except.ok false => phReturn stream true true

/-- Every run of the handler ends in a `phReturn` on its stream. -/
theorem protocolHandler_phReturn (state : Option State)
    (stream : Option StreamTok) (ext : PHExt) :
    ∃ a d, protocolHandler state stream ext = phReturn stream a d := by
  unfold protocolHandler
  repeat' split
  all_goals exact ⟨_, _, rfl⟩

/-- A state with a peer store, as the handler expects. -/
def phState : State where
  Chain := { tok := 0 }
  Config := { P2P := none }
  Peers := some { tok := 1 }
  Host := none

/-- Benign concrete collaborators for the C7 evaluation. -/
def phExt0 : PHExt where
  infoFromP2pAddr := fun _ => Except.ok (some { tok := 0 })
  peersAdd := fun _ => Except.ok none

/-- C7 (code bug): with a live stream the handler does close it on every
exit path, and a nil state returns gracefully without registration or
dial — but on a nil stream (state and peer store fine) the deferred
`stream.Close()` dereferences the nil stream: the handler panics instead
of logging and returning. -/
theorem C7_nil_stream_panics :
    protocolHandler (some phState) none phExt0
      = { panicked := true, closed := false
          addCalled := false, dialLaunched := false }
    ∧ (∀ state sd ext, (protocolHandler state (some sd) ext).closed = true
        ∧ (protocolHandler state (some sd) ext).panicked = false)
    ∧ (∀ sd ext, protocolHandler none (some sd) ext
        = { panicked := false, closed := true
            addCalled := false, dialLaunched := false }) := by
  refine ⟨rfl, ?_, ?_⟩
  · intro state sd ext
    obtain ⟨a, d, h⟩ := protocolHandler_phReturn state (some sd) ext
    rw [h]
    exact ⟨rfl, rfl⟩
  · intro sd ext
    rfl

/-! ## `pingHandler` (lines 453-478)

The inbound side wraps the stream in `bufio.NewReader`/`bufio.NewWriter`
(buffer size 4096) and runs `io.Copy(w, r)`. The copy drains the reader
in chunks of at most 4096 bytes into the buffered writer; bytes reach
the underlying stream only when the 4096-byte buffer overflows. The
function then returns — `defer stream.Close()` fires — without ever
calling `w.Flush()`, so whatever still sits in the buffer is dropped. -/

/-- `bufio.defaultBufSize`. -/
def bufWriterCap : Nat := 4096

/-- A `bufio.Writer` over the stream: the buffer contents and the bytes
already written through to the stream. -/
structure BufWriter where
  buffered : List Nat
  flushed : List Nat
deriving DecidableEq, Repr

/-- One `Write` call on the buffered writer (chunks of at most the
buffer size arrive from the reader side of `io.Copy`): append when it
fits, otherwise fill the buffer, flush it, and keep the remainder; an
oversized chunk is written through after a flush. -/
def bwWrite (w : BufWriter) (chunk : List Nat) : BufWriter :=
  if w.buffered.length + chunk.length ≤ bufWriterCap then
    { w with buffered := w.buffered ++ chunk }
  else if chunk.length ≤ bufWriterCap then
    { buffered := chunk.drop (bufWriterCap - w.buffered.length)
      flushed := w.flushed ++ w.buffered
          ++ chunk.take (bufWriterCap - w.buffered.length) }
  else
    { buffered := [], flushed := w.flushed ++ w.buffered ++ chunk }

/-- `pingHandler`'s echo: what the remote actually receives back, i.e.
the bytes flushed through to the stream when the handler returns and
closes it (there is no final `Flush`). -/
def pingHandlerEcho (chunks : List (List Nat)) : List Nat :=
  (chunks.foldl bwWrite { buffered := [], flushed := [] }).flushed

/-- C8 (code bug): an inbound ping stream delivering the 32-byte nonce
in one read is answered with nothing at all — the echoed bytes stay in
the unflushed 4096-byte writer buffer when the stream is closed — so the
handler does not write back the byte sequence it read. -/
theorem C8_ping_echo_dropped :
    pingHandlerEcho [List.range 32] = []
    ∧ List.range 32 ≠ ([] : List Nat)
    ∧ (pingHandlerEcho [List.range 32]
        = (List.range 32)) = False := by
  refine ⟨?_, ?_, ?_⟩ <;> decide

end P2P
